import Mathlib

/-!
Verification development for the `testcaseer` browser-session recorder.

The development shallowly embeds the parts of the code that the verified
properties concern:

* `src/testcaseer/models.py` — the `ElementInfo` and `Step` records
  (timestamps, which come from the ambient clock, are omitted; network and
  console events are represented by numeric identifiers, since none of the
  verified properties depends on their payload fields);
* `src/testcaseer/events.py` — `parse_element_info` and the injected
  JavaScript: the debounced `input` handler and the `getCssSelector`
  element-addressing algorithm;
* `src/testcaseer/recorder.py` — the `Recorder` state and its handlers
  (`_on_console_message`, `_on_request`, `_on_response`,
  `_capture_response_body`, `_on_request_failed`, `start_recording`,
  `stop_recording`, `on_action`, `_export_testcase`).

Host-side concurrency is the cooperative single-threaded asyncio model: a
handler runs atomically between `await` points.  Accordingly each
synchronous block of the Python source becomes one atomic Lean transition,
and `on_action` — whose body suspends at the screenshot `await` between
sequence-number assignment and step append — is split into
`on_action_begin` (everything before the suspension) and
`on_action_finish` (everything after it).  Arbitrary interleavings of the
atomic blocks are modelled by sequences of `ROp` operations.  Terminal
output (`console.print`) is not part of the recorder state and is not
modelled; file-system effects of exporters are modelled by their returned
values.
-/

namespace Testcaseer

/-- Scalar JavaScript values crossing the page→host boundary.  Numbers are
modelled as integers (the embedding does not depend on fractional values);
coercion of numeric strings to numbers is not modelled. -/
inductive JVal where
  | s (v : String)
  | n (v : Int)
  | b (v : Bool)
  | null
deriving DecidableEq, Repr

/-- JavaScript truthiness, as used by `if v` in `parse_element_info`. -/
def JVal.truthy : JVal → Bool
  | .s v => v ≠ ""
  | .n v => v ≠ 0
  | .b v => v
  | .null => false

/-- The keyed dictionary sent by the injected JavaScript for one action
(`data` in `Recorder.on_action`).  A `none` field is an absent key. -/
structure Payload where
  eventType : Option JVal := none
  selector : Option JVal := none
  xpath : Option JVal := none
  tagName : Option JVal := none
  text : Option JVal := none
  placeholder : Option JVal := none
  idAttr : Option JVal := none
  nameAttr : Option JVal := none
  typeAttr : Option JVal := none
  href : Option JVal := none
  className : Option JVal := none
  value : Option JVal := none
  selectedText : Option JVal := none
  key : Option JVal := none
  boundingBox : Option (List (String × JVal)) := none
deriving DecidableEq, Repr

/-- `models.ElementInfo` (pydantic).  `attributes` is the ordered string
mapping, `bounding_box` the numeric mapping. -/
structure ElementInfo where
  selector : String
  xpath : Option String := none
  tag_name : String
  text : Option String := none
  placeholder : Option String := none
  attributes : List (String × String) := []
  bounding_box : List (String × Int) := []
deriving DecidableEq, Repr

/-- `models.Step` restricted to the fields the verified properties use.
Network and console events are identifiers; the screenshot path is the
identifier of the screenshot request. -/
structure Step where
  number : Nat
  action_type : String
  element : ElementInfo
  input_value : Option JVal := none
  key : Option JVal := none
  screenshot_path : Option Nat := none
  network_requests : List Nat := []
  console_logs : List Nat := []
  description_short : String := ""
  description_detailed : String := ""
deriving DecidableEq, Repr

/-- `events.parse_element_info`: the cleaned dictionary built from the raw
payload.  Fields default as in the source (`data.get("selector", "")`,
`data.get("boundingBox", {})`); the `attributes` sub-dictionary keeps only
truthy values of the fixed allow-list. -/
structure ParsedElement where
  selector : JVal
  xpath : Option JVal
  tag_name : JVal
  text : Option JVal
  placeholder : Option JVal
  attributes : List (String × JVal)
  bounding_box : List (String × JVal)
deriving DecidableEq, Repr

def parse_element_info (data : Payload) : ParsedElement :=
  { selector := data.selector.getD (.s "")
    xpath := data.xpath
    tag_name := data.tagName.getD (.s "")
    text := data.text
    placeholder := data.placeholder
    attributes :=
      ([("id", data.idAttr), ("name", data.nameAttr), ("type", data.typeAttr),
        ("href", data.href), ("class", data.className)].filterMap
        fun kv => kv.2.map fun v => (kv.1, v)).filter fun kv => kv.2.truthy
    bounding_box := data.boundingBox.getD [] }

/-- Pydantic validation of a string field (`str`): only strings pass. -/
def JVal.asStr : JVal → Option String
  | .s v => some v
  | _ => none

/-- Pydantic validation of `str | None`. -/
def optStr : Option JVal → Option (Option String)
  | none => some none
  | some .null => some none
  | some v => v.asStr.map some

/-- Pydantic validation of a float field; numeric-string coercion is not
modelled (the page always sends genuine numbers here). -/
def JVal.asNum : JVal → Option Int
  | .n v => some v
  | _ => none

/-- `ElementInfo(...)` construction in `Recorder.on_action`: pydantic
validation of the parsed element dictionary; `none` is the raised
`ValidationError` caught by the surrounding `try`. -/
def mkElementInfo (p : ParsedElement) : Option ElementInfo := do
  let selector ← p.selector.asStr
  let xpath ← optStr p.xpath
  let tag_name ← p.tag_name.asStr
  let text ← optStr p.text
  let placeholder ← optStr p.placeholder
  let attributes ← p.attributes.mapM fun kv => kv.2.asStr.map fun v => (kv.1, v)
  let bounding_box ← p.bounding_box.mapM fun kv => kv.2.asNum.map fun v => (kv.1, v)
  pure { selector, xpath, tag_name, text, placeholder, attributes, bounding_box }

/-- Python/JS dictionary lookup on an association list (`m.get(k)`). -/
def dictGet {β : Type} : List (String × β) → String → Option β
  | [], _ => none
  | kv :: rest, k => if kv.1 = k then some kv.2 else dictGet rest k

/-- Python/JS dictionary insertion on an association list: replace in
place when the key exists, else append (`m[k] = v`). -/
def dictInsert {β : Type} (m : List (String × β)) (k : String) (v : β) : List (String × β) :=
  if (dictGet m k).isSome then m.map fun kv => if kv.1 = k then (k, v) else kv
  else m ++ [(k, v)]

/-- Python/JS dictionary deletion: remove the entry with the given key. -/
def dictPop {β : Type} (m : List (String × β)) (k : String) : List (String × β) :=
  m.filter fun kv => kv.1 ≠ k

/-- `Recorder.__init__` state.  Event identifiers stand in for the
`ConsoleLog` / `NetworkRequest` / `PageError` objects.  `inflight_bodies`
holds the identifiers owned by spawned `_capture_response_body` tasks that
have not settled yet (in the source these live in the tasks themselves);
`screenshots_requested` records calls to the screenshot collaborator;
`export_runs` counts actual exports and `skip_reported` the zero-step
no-op report in `_export_testcase`; `recording_complete` is the
`_recording_complete` asyncio event. -/
structure Recorder where
  is_recording : Bool := false
  steps : List Step := []
  start_time_set : Bool := false
  end_time_set : Bool := false
  console_logs : List Nat := []
  network_requests : List Nat := []
  page_errors : List Nat := []
  pending_requests : List (String × Nat) := []
  step_console_logs : List Nat := []
  step_network_requests : List Nat := []
  inflight_bodies : List Nat := []
  screenshots_requested : List (Nat × String) := []
  export_runs : Nat := 0
  skip_reported : Bool := false
  recording_complete : Bool := false
deriving DecidableEq, Repr

def initRecorder : Recorder := {}

/-- `Recorder._on_console_message` (one atomic handler call): when
recording, append the entry to the session log and the current step
buffer. -/
def on_console_message (s : Recorder) (cid : Nat) : Recorder :=
  if ¬ s.is_recording then s
  else { s with console_logs := s.console_logs ++ [cid]
                step_console_logs := s.step_console_logs ++ [cid] }

/-- `Recorder._on_page_error`: when recording, append to the session fault
log. -/
def on_page_error (s : Recorder) (eid : Nat) : Recorder :=
  if ¬ s.is_recording then s
  else { s with page_errors := s.page_errors ++ [eid] }

/-- `List` prefix test over characters (kernel-computable replacement for
the byte-position string primitives). -/
def listStarts : List Char → List Char → Bool
  | _, [] => true
  | [], _ :: _ => false
  | a :: as, b :: bs => a == b && listStarts as bs

/-- Substring containment over characters. -/
def containsSub (pat : List Char) : List Char → Bool
  | [] => listStarts [] pat
  | c :: rest => listStarts (c :: rest) pat || containsSub pat rest

/-- The URL skip test in `Recorder._on_request`
(`url.startswith("data:") or "__testcaseer" in url`). -/
def skip_url (url : String) : Bool :=
  listStarts url.data "data:".data || containsSub "__testcaseer".data url.data

/-- `Recorder._on_request`: when recording and the URL is not synthetic,
register a pending `NetworkRequest` keyed by URL, overwriting any entry
already present for that URL. -/
def on_request (s : Recorder) (url : String) (rid : Nat) : Recorder :=
  if ¬ s.is_recording then s
  else if skip_url url then s
  else { s with pending_requests := dictInsert s.pending_requests url rid }

/-- `Recorder._on_response`: when recording, pop the pending entry for the
URL (a response with no pending entry is dropped); an `xhr`/`fetch`
resource hands the event to a spawned `_capture_response_body` task, any
other resource is appended to the session log and step buffer
immediately. -/
def on_response (s : Recorder) (url : String) (api : Bool) : Recorder :=
  if ¬ s.is_recording then s
  else match dictGet s.pending_requests url with
    | none => s
    | some rid =>
      let s := { s with pending_requests := dictPop s.pending_requests url }
      if api then { s with inflight_bodies := s.inflight_bodies ++ [rid] }
      else { s with network_requests := s.network_requests ++ [rid]
                    step_network_requests := s.step_network_requests ++ [rid] }

/-- The `finally` block of `Recorder._capture_response_body`: when the
spawned body-fetch task settles (success or failure), append the event to
the session log and the step buffer.  There is deliberately no
`is_recording` guard: a body fetch settling after the recording stopped is
still appended. -/
def capture_body_settle (s : Recorder) (rid : Nat) : Recorder :=
  if rid ∈ s.inflight_bodies then
    { s with inflight_bodies := s.inflight_bodies.erase rid
             network_requests := s.network_requests ++ [rid]
             step_network_requests := s.step_network_requests ++ [rid] }
  else s

/-- `Recorder._on_request_failed`: when recording, pop the pending entry
(if any) and append the failed event to the session log and step
buffer. -/
def on_request_failed (s : Recorder) (url : String) : Recorder :=
  if ¬ s.is_recording then s
  else match dictGet s.pending_requests url with
    | none => s
    | some rid =>
      { s with pending_requests := dictPop s.pending_requests url
               network_requests := s.network_requests ++ [rid]
               step_network_requests := s.step_network_requests ++ [rid] }

/-- `Recorder.start_recording`: no-op while already recording; otherwise
set the flag and start time and clear the four session collections.  (The
pending-request map and the per-step buffers are not touched by the
source.) -/
def start_recording (s : Recorder) : Recorder :=
  if s.is_recording then s
  else { s with is_recording := true
                start_time_set := true
                steps := []
                console_logs := []
                network_requests := []
                page_errors := [] }

/-- `Recorder._export_testcase` as it affects recorder state: a zero-step
session skips export and reports the no-op, otherwise the frozen snapshot
is handed to the exporters (one export run). -/
def export_testcase (s : Recorder) : Recorder :=
  if s.steps = [] then { s with skip_reported := true }
  else { s with export_runs := s.export_runs + 1 }

/-- `Recorder.stop_recording`: while not recording, just signal
completion; otherwise clear the flag, set the end time, export, and
signal completion. -/
def stop_recording (s : Recorder) : Recorder :=
  if ¬ s.is_recording then { s with recording_complete := true }
  else
    let s := { s with is_recording := false, end_time_set := true }
    let s := export_testcase s
    { s with recording_complete := true }

/-- Character-wise `s[:n]` (avoids byte-position string primitives). -/
def strTake (s : String) (n : Nat) : String := ⟨s.data.take n⟩

/-- String form of a scalar value used in description templates. -/
def jstr : JVal → String
  | .s v => v
  | .n v => toString v
  | .b true => "True"
  | .b false => "False"
  | .null => "None"

/-- Python `a or b` over an optional string (both `None` and `""` are
falsy). -/
def or_falsy (a : Option String) (b : String) : String :=
  match a with
  | some v => if v = "" then b else v
  | none => b

/-- The identifier chain of `Recorder._generate_short_description`:
visible text (truncated to 30), else id attribute, else placeholder, else
tag name. -/
def pick_identifier (element : ElementInfo) : String :=
  let text := element.text.bind fun t => if t = "" then none else some (strTake t 30)
  or_falsy text (or_falsy (element.attributes.lookup "id")
    (or_falsy element.placeholder element.tag_name))

/-- `Recorder._generate_short_description`. -/
def generate_short_description (action_type : String) (element : ElementInfo)
    (data : Payload) : String :=
  let identifier := pick_identifier element
  if action_type = "click" then "Click on \x27" ++ identifier ++ "\x27"
  else if action_type = "dblclick" then "Double-click on \x27" ++ identifier ++ "\x27"
  else if action_type = "input" then
    let value := jstr (data.value.getD (.s ""))
    if value.data.length > 20 then "Type \x27" ++ strTake value 20 ++ "...\x27 in " ++ identifier
    else "Type \x27" ++ value ++ "\x27 in " ++ identifier
  else if action_type = "select" then
    let selected := jstr ((data.selectedText.orElse fun _ => data.value).getD (.s ""))
    "Select \x27" ++ selected ++ "\x27 in " ++ identifier
  else if action_type = "check" then "Check " ++ identifier
  else if action_type = "uncheck" then "Uncheck " ++ identifier
  else if action_type = "keypress" then "Press " ++ jstr (data.key.getD (.s ""))
  else action_type ++ " on " ++ identifier

/-- `Recorder._generate_detailed_description`. -/
def generate_detailed_description (action_type : String) (element : ElementInfo)
    (data : Payload) : String :=
  generate_short_description action_type element data ++ "\nElement: " ++ element.selector

/-- The `action_map` of `Recorder.on_action`: the seven recognized event
kinds. -/
def action_map : List (String × String) :=
  [("click", "click"), ("dblclick", "dblclick"), ("input", "input"),
   ("select", "select"), ("check", "check"), ("uncheck", "uncheck"),
   ("keypress", "keypress")]

/-- `action_map.get(data.get("eventType", ""))`: a missing or non-string
event type, or one outside the map, yields `none`. -/
def action_type_of (data : Payload) : Option String :=
  match data.eventType.getD (.s "") with
  | .s t => action_map.lookup t
  | _ => none

/-- The local state of one `on_action` coroutine suspended at the
screenshot `await`: everything computed before the suspension point. -/
structure InFlightAction where
  step_number : Nat
  action_type : String
  element : ElementInfo
  data : Payload
  screenshot_path : Option Nat
  description_short : String
  description_detailed : String
deriving DecidableEq, Repr

/-- `Recorder.on_action`, lines up to and including the screenshot request
(the synchronous prefix before the `await` suspension): the recording
guard, the `action_map` lookup, element parsing and validation (a failure
drops the action with a warning), sequence-number assignment
(`len(self.steps) + 1`), description generation and the screenshot
request.  Returns the suspended continuation state, or `none` when the
action was dropped.  The screenshot is modelled as succeeding; a failure
would only leave `screenshot_path` empty. -/
def on_action_begin (s : Recorder) (data : Payload) :
    Option InFlightAction × Recorder :=
  if ¬ s.is_recording then (none, s)
  else match action_type_of data with
  | none => (none, s)
  | some action_type =>
    match mkElementInfo (parse_element_info data) with
    | none => (none, s)
    | some element =>
      let step_number := s.steps.length + 1
      let description_short := generate_short_description action_type element data
      let description_detailed := generate_detailed_description action_type element data
      let s := { s with screenshots_requested :=
                          s.screenshots_requested ++ [(step_number, element.selector)] }
      (some { step_number, action_type, element, data,
              screenshot_path := some step_number,
              description_short, description_detailed }, s)

/-- `Recorder.on_action`, after the screenshot `await` resumes: drain the
per-step console/network buffers wholesale into the new `Step` and append
it (one synchronous block in the source). -/
def on_action_finish (s : Recorder) (t : InFlightAction) : Recorder :=
  let step_logs := s.step_console_logs
  let step_requests := s.step_network_requests
  let s := { s with step_console_logs := [], step_network_requests := [] }
  let step : Step :=
    { number := t.step_number
      action_type := t.action_type
      element := t.element
      input_value := t.data.value
      key := t.data.key
      screenshot_path := t.screenshot_path
      network_requests := step_requests
      console_logs := step_logs
      description_short := t.description_short
      description_detailed := t.description_detailed }
  { s with steps := s.steps ++ [step] }

/-- `Recorder.on_action` run to completion with no interleaving. -/
def on_action (s : Recorder) (data : Payload) : Recorder :=
  match on_action_begin s data with
  | (none, s2) => s2
  | (some t, s2) => on_action_finish s2 t

/-- The whole host-side system: the recorder state plus the `on_action`
coroutines currently suspended at their screenshot `await`. -/
structure Sys where
  recorder : Recorder := initRecorder
  tasks : List InFlightAction := []
deriving DecidableEq, Repr

/-- One atomic block of the host event loop.  `actionBegin` runs an
`on_action` call up to its suspension point; `actionFinish i` resumes the
`i`-th suspended call. -/
inductive ROp where
  | consoleMsg (cid : Nat)
  | pageError (eid : Nat)
  | request (url : String) (rid : Nat)
  | response (url : String) (api : Bool)
  | requestFailed (url : String)
  | bodySettle (rid : Nat)
  | actionBegin (data : Payload)
  | actionFinish (i : Nat)
  | startRec
  | stopRec
deriving DecidableEq, Repr

def applyOp (s : Sys) : ROp → Sys
  | .consoleMsg cid => { s with recorder := on_console_message s.recorder cid }
  | .pageError eid => { s with recorder := on_page_error s.recorder eid }
  | .request url rid => { s with recorder := on_request s.recorder url rid }
  | .response url api => { s with recorder := on_response s.recorder url api }
  | .requestFailed url => { s with recorder := on_request_failed s.recorder url }
  | .bodySettle rid => { s with recorder := capture_body_settle s.recorder rid }
  | .actionBegin data =>
    let p := on_action_begin s.recorder data
    { recorder := p.2, tasks := s.tasks ++ p.1.toList }
  | .actionFinish i =>
    match s.tasks.get? i with
    | none => s
    | some t => { recorder := on_action_finish s.recorder t, tasks := s.tasks.eraseIdx i }
  | .startRec => { s with recorder := start_recording s.recorder }
  | .stopRec => { s with recorder := stop_recording s.recorder }

def runOps (s : Sys) (ops : List ROp) : Sys := ops.foldl applyOp s

/-- The operations that can occur inside a single recording session (no
fresh start signal). -/
inductive SessionOp where
  | consoleMsg (cid : Nat)
  | pageError (eid : Nat)
  | request (url : String) (rid : Nat)
  | response (url : String) (api : Bool)
  | requestFailed (url : String)
  | bodySettle (rid : Nat)
  | actionBegin (data : Payload)
  | actionFinish (i : Nat)
  | stopRec
deriving DecidableEq, Repr

def SessionOp.toROp : SessionOp → ROp
  | .consoleMsg cid => .consoleMsg cid
  | .pageError eid => .pageError eid
  | .request url rid => .request url rid
  | .response url api => .response url api
  | .requestFailed url => .requestFailed url
  | .bodySettle rid => .bodySettle rid
  | .actionBegin data => .actionBegin data
  | .actionFinish i => .actionFinish i
  | .stopRec => .stopRec

/-- The system at the start of a recording session. -/
def sessionStart : Sys := { recorder := start_recording initRecorder, tasks := [] }

def runSession (ops : List SessionOp) : Sys :=
  runOps sessionStart (ops.map SessionOp.toROp)

/-- One `on_action` call processed to completion before the next event is
handled (serial, FIFO processing). -/
def serial_on_action (s : Sys) (data : Payload) : Sys :=
  applyOp (applyOp s (.actionBegin data)) (.actionFinish 0)

def serialRun (s : Sys) (ds : List Payload) : Sys := ds.foldl serial_on_action s

/-- The session snapshot handed to the exporters (`models.TestCase`,
restricted to the fields the export phase freezes). -/
structure TestCase where
  name : String
  steps : List Step := []
  console_logs : List Nat := []
  network_requests : List Nat := []
  page_errors : List Nat := []
  total_steps : Nat := 0
deriving DecidableEq, Repr

/-- The exporter sequence of `Recorder._export_testcase` (JSON, Markdown,
HTML invoked one after the other, with no exception handling around any of
them), generalized over the exporter list.  Each exporter maps the frozen
snapshot to the path it wrote, or raises.  A raised exception aborts the
remaining exporters and propagates out of the export phase. -/
def run_exporters (snap : TestCase) :
    List (TestCase → Except String String) → List String × Option String
  | [] => ([], none)
  | e :: rest =>
    match e snap with
    | .error msg => ([], some msg)
    | .ok path =>
      let p := run_exporters snap rest
      (path :: p.1, p.2)

/-- State of the injected input handler (`events.EVENT_LISTENER_JS`): one
global `inputDebounceTimer` (the selector its callback closed over, and
its deadline), the selector-keyed `lastInputValue` map, and the `input`
actions forwarded to the host so far (selector and the value read from
`lastInputValue` when the timer fired). -/
structure DebounceState where
  inputDebounceTimer : Option (String × Nat) := none
  lastInputValue : List (String × String) := []
  forwarded : List (String × Option String) := []
deriving DecidableEq, Repr

/-- The `setTimeout` callback of the input handler: forward an `input`
action whose value is `lastInputValue[selector]`, then delete that map
entry. -/
def fire_timer (st : DebounceState) : DebounceState :=
  match st.inputDebounceTimer with
  | none => st
  | some (sel, _) =>
    { inputDebounceTimer := none
      lastInputValue := dictPop st.lastInputValue sel
      forwarded := st.forwarded ++ [(sel, dictGet st.lastInputValue sel)] }

/-- Event-loop timer delivery: before an event at time `t` is handled, a
pending timer whose deadline has passed fires. -/
def advance_to (t : Nat) (st : DebounceState) : DebounceState :=
  match st.inputDebounceTimer with
  | some (_, fireAt) => if fireAt ≤ t then fire_timer st else st
  | none => st

/-- The `input` event listener: clear the (single, global) pending timer,
store the field value under the field selector, and arm a fresh 500 ms
timer for this field. -/
def on_input (st : DebounceState) (t : Nat) (sel value : String) : DebounceState :=
  let st := advance_to t st
  let st := { st with inputDebounceTimer := none }
  let st := { st with lastInputValue := dictInsert st.lastInputValue sel value }
  { st with inputDebounceTimer := some (sel, t + 500) }

/-- Run a keystroke trace (arrival time, field selector, field value at
that keystroke; times nondecreasing) and then let any pending timer fire
(the trailing wait). -/
def run_debounce (events : List (Nat × String × String)) : DebounceState :=
  fire_timer (events.foldl (fun st e => on_input st e.1 e.2.1 e.2.2) {})

/-- A DOM element of the body subtree: tag name, `id` attribute,
`data-testid` value, class list, and children in document order.  The
whole document is the body element (`getCssSelector` bottoms out at
`document.body`, and event targets live inside it); an absent attribute is
the empty string (JS falsy, as the source tests it). -/
inductive Dom where
  | el (tag idAttr testid : String) (classes : List String) (children : List Dom)

def Dom.tag : Dom → String
  | .el t _ _ _ _ => t

def Dom.idAttr : Dom → String
  | .el _ i _ _ _ => i

def Dom.testid : Dom → String
  | .el _ _ ti _ _ => ti

def Dom.classes : Dom → List String
  | .el _ _ _ cl _ => cl

def Dom.children : Dom → List Dom
  | .el _ _ _ _ cs => cs

/-- The node reached from `d` by the child-index path `p`. -/
def fetch (d : Dom) : List Nat → Option Dom
  | [] => some d
  | i :: p =>
    match d.children[i]? with
    | some c => fetch c p
    | none => none

mutual
/-- All valid paths of the subtree rooted at `d`, in document (preorder)
order; `[]` is the root itself. -/
def subtreePaths : Dom → List (List Nat)
  | .el _ _ _ _ cs => [] :: childPaths 0 cs
/-- Paths into a child list, the first child carrying index `k`. -/
def childPaths (k : Nat) : List Dom → List (List Nat)
  | [] => []
  | c :: cs => (subtreePaths c).map (fun p => k :: p) ++ childPaths (k + 1) cs
end

/-- The selector strings `getCssSelector` builds, as a syntax tree:
`#id`, `[data-testid="v"]`, `tag.c1.c2…`, `parent > tag` /
`parent > tag:nth-of-type(n)`, and the fixed root token `body` (a tag
selector). -/
inductive Sel where
  | idSel (v : String)
  | testidSel (v : String)
  | tagCls (tag : String) (classes : List String)
  | child (parent : Sel) (tag : String) (nth : Option Nat)
  | bodyTag
deriving DecidableEq, Repr

/-- The 1-based position of the node at `p` among the same-tag children of
its parent (CSS `:nth-of-type` counting; also the value
`siblings.indexOf(el) + 1` computes in the source, `indexOf` comparing by
node identity). -/
def nthOfType (doc : Dom) (p : List Nat) : Option Nat :=
  match p.getLast?, fetch doc p.dropLast, fetch doc p with
  | some j, some par, some n =>
    some (((par.children.take j).filter fun c => c.tag == n.tag).length + 1)
  | _, _, _ => none

/-- CSS matching of the selector forms the addressor emits, against the
node at path `p` of `doc`. -/
def matchesSel (doc : Dom) : Sel → List Nat → Bool
  | .idSel v, p =>
    match fetch doc p with
    | some n => n.idAttr == v
    | none => false
  | .testidSel v, p =>
    match fetch doc p with
    | some n => n.testid == v
    | none => false
  | .tagCls t cls, p =>
    match fetch doc p with
    | some n => n.tag == t && cls.all fun c => n.classes.contains c
    | none => false
  | .bodyTag, p =>
    match fetch doc p with
    | some n => n.tag == "body"
    | none => false
  | .child ps t nth, p =>
    !p.isEmpty && matchesSel doc ps p.dropLast &&
    (match fetch doc p with
     | some n => n.tag == t
     | none => false) &&
    (match nth with
     | none => true
     | some k => nthOfType doc p == some k)

/-- `document.querySelectorAll`: every node of the document matching the
selector, in document order, as paths. -/
def resolveAll (doc : Dom) (sel : Sel) : List (List Nat) :=
  (subtreePaths doc).filter (matchesSel doc sel)

/-- `getCssSelector` from `events.EVENT_LISTENER_JS`, for the node of the
body subtree at path `p` (`el === document.body` is the empty path).  In
priority order: non-empty `id`; non-empty `data-testid`; tag+class
combination when `document.querySelectorAll` finds exactly one match;
otherwise the parent selector extended with `> tag` when the node is the
only child of its tag, else `> tag:nth-of-type(n)`. -/
def getCssSelector (doc : Dom) (p : List Nat) : Sel :=
  if hp : p = [] then .bodyTag
  else
    match fetch doc p with
    | none => .bodyTag
    | some eln =>
      if eln.idAttr ≠ "" then .idSel eln.idAttr
      else if eln.testid ≠ "" then .testidSel eln.testid
      else if !eln.classes.isEmpty &&
          (resolveAll doc (.tagCls eln.tag eln.classes)).length == 1 then
        .tagCls eln.tag eln.classes
      else
        let sibs :=
          match fetch doc p.dropLast with
          | some par => (par.children.filter fun c => c.tag == eln.tag).length
          | none => 0
        if sibs == 1 then .child (getCssSelector doc p.dropLast) eln.tag none
        else .child (getCssSelector doc p.dropLast) eln.tag (some ((nthOfType doc p).getD 1))
termination_by p.length
decreasing_by
  all_goals
    simp only [List.length_dropLast]
    exact Nat.sub_lt (List.length_pos.mpr hp) Nat.one_pos

/-- The non-empty `id` values of the document, one entry per node carrying
one, in document order. -/
def idsOf (doc : Dom) : List String :=
  (subtreePaths doc).filterMap fun p =>
    (fetch doc p).bind fun n => if n.idAttr = "" then none else some n.idAttr

/-- The non-empty `data-testid` values of the document. -/
def testidsOf (doc : Dom) : List String :=
  (subtreePaths doc).filterMap fun p =>
    (fetch doc p).bind fun n => if n.testid = "" then none else some n.testid

/-! ### Concrete demonstration inputs -/

/-- A well-formed click payload (the §8 scenario: a button with id
`submit` and text `Submit`). -/
def clickPayload : Payload :=
  { eventType := some (.s "click"), selector := some (.s "#submit"),
    tagName := some (.s "button"), text := some (.s "Submit"),
    idAttr := some (.s "submit"),
    boundingBox := some [("x", .n 10), ("y", .n 20), ("w", .n 30), ("h", .n 40)] }

/-- A malformed payload: the element descriptor carries a non-numeric
bounding-box entry, so pydantic rejects the `ElementInfo`. -/
def badPayload : Payload :=
  { eventType := some (.s "click"), selector := some (.s "#submit"),
    tagName := some (.s "button"), boundingBox := some [("x", .s "abc")] }

/-- A payload whose event type is not one of the seven recognized kinds
(`hover` is a valid `ActionType` in the data model but absent from
`action_map`). -/
def hoverPayload : Payload :=
  { eventType := some (.s "hover"), selector := some (.s "#submit"),
    tagName := some (.s "div") }

/-- A reachable idle state carrying leftover entries from a previous run:
record, start an API request, receive its response, stop, and let the
body fetch settle after the stop. -/
def demoPrevRun : Sys :=
  runOps {} [.startRec, .request "u" 7, .response "u" true, .stopRec, .bodySettle 7]

/-- Two overlapping `on_action` calls: both suspend at their screenshot
`await` before either resumes. -/
def demoInterleaved : Sys :=
  runOps sessionStart
    [.actionBegin clickPayload, .actionBegin clickPayload, .actionFinish 0, .actionFinish 0]

/-- Contiguous 1..N sequence numbering in order. -/
def seq_contiguous (steps : List Step) : Prop :=
  steps.map Step.number = List.range' 1 steps.length

/-! ### C1 — input debouncing -/

/-- C1: the spec claims each field debounces independently, keyed by the
element selector.  The injected handler keys only the `lastInputValue`
map by selector; `inputDebounceTimer` itself is a single shared variable,
so a keystroke on a second field cancels the first field's pending timer.
On the spec's own scenario — type "a", "ab" in field `#A`, then "c" in
field `#B` within 500 ms, then wait — the code forwards exactly one
`input` action, `("#B", "c")`; field `#A`'s final value "ab" is never
forwarded (and its `lastInputValue` entry leaks), where the claim expects
the two events `("#A", "ab")` and `("#B", "c")`. -/
theorem debounce_shared_timer_drops_first_field :
    (run_debounce [(0, "#A", "a"), (100, "#A", "ab"), (200, "#B", "c")]).forwarded
        = [("#B", some "c")] ∧
    (run_debounce [(0, "#A", "a"), (100, "#A", "ab"), (200, "#B", "c")]).forwarded
        ≠ [("#A", some "ab"), ("#B", some "c")] ∧
    (run_debounce [(0, "#A", "a"), (100, "#A", "ab"), (200, "#B", "c")]).lastInputValue
        = [("#A", "ab")] := by
  refine ⟨by decide, by decide, by decide⟩

/-! ### C5 — what the start transition clears -/

/-- C5 counterexample: starting a new recording from the reachable idle
state `demoPrevRun` (whose per-step network buffer still holds the event
that settled after the previous stop) does not leave every buffer empty:
the per-step network buffer still holds the stale entry. -/
theorem start_recording_stale_buffer_counterexample :
    ¬ ((start_recording demoPrevRun.recorder).pending_requests = [] ∧
       (start_recording demoPrevRun.recorder).step_console_logs = [] ∧
       (start_recording demoPrevRun.recorder).step_network_requests = []) := by
  decide

/-- C5 amended: the start transition (from idle) clears the step list and
the session-level console/network/fault logs and sets the recording flag,
but leaves the pending-request map and the per-step console/network
buffers untouched — they may carry entries over from a previous run. -/
theorem start_recording_clears_session_collections (s : Recorder)
    (h : s.is_recording = false) :
    (start_recording s).steps = [] ∧
    (start_recording s).console_logs = [] ∧
    (start_recording s).network_requests = [] ∧
    (start_recording s).page_errors = [] ∧
    (start_recording s).is_recording = true ∧
    (start_recording s).pending_requests = s.pending_requests ∧
    (start_recording s).step_console_logs = s.step_console_logs ∧
    (start_recording s).step_network_requests = s.step_network_requests := by
  simp [start_recording, h]

/-- Witness for the amended C5 at the concrete idle state. -/
theorem start_recording_clears_session_collections_witness :
    demoPrevRun.recorder.is_recording = false ∧
    ((start_recording demoPrevRun.recorder).steps = [] ∧
     (start_recording demoPrevRun.recorder).console_logs = [] ∧
     (start_recording demoPrevRun.recorder).network_requests = [] ∧
     (start_recording demoPrevRun.recorder).page_errors = [] ∧
     (start_recording demoPrevRun.recorder).is_recording = true ∧
     (start_recording demoPrevRun.recorder).pending_requests = demoPrevRun.recorder.pending_requests ∧
     (start_recording demoPrevRun.recorder).step_console_logs = demoPrevRun.recorder.step_console_logs ∧
     (start_recording demoPrevRun.recorder).step_network_requests = demoPrevRun.recorder.step_network_requests) :=
  ⟨by decide, start_recording_clears_session_collections demoPrevRun.recorder (by decide)⟩

/-! ### C9 — malformed action payloads -/

/-- C9: an action whose element descriptor fails `ElementInfo`
validation is dropped: the recorder state is completely unchanged (no
step, no buffer drain, no sequence number consumed), and a subsequent
action is processed exactly as if the dropped one had never arrived. -/
theorem malformed_action_dropped (s : Recorder) (d : Payload)
    (h : mkElementInfo (parse_element_info d) = none) :
    on_action s d = s ∧
    ∀ d2 : Payload, on_action (on_action s d) d2 = on_action s d2 := by
  have hmain : on_action s d = s := by
    by_cases hr : s.is_recording = true
    · rcases hat : action_type_of d with _ | a
      · simp [on_action, on_action_begin, hr, hat]
      · simp [on_action, on_action_begin, hr, hat, h]
    · simp [on_action, on_action_begin, hr]
  exact ⟨hmain, fun d2 => by rw [hmain]⟩

/-- Witness for C9 at a concrete malformed payload. -/
theorem malformed_action_dropped_witness :
    mkElementInfo (parse_element_info badPayload) = none ∧
    on_action (start_recording initRecorder) badPayload = start_recording initRecorder :=
  ⟨by decide,
   (malformed_action_dropped (start_recording initRecorder) badPayload (by decide)).1⟩

/-! ### C10 — unrecognized event types -/

/-- C10: an action payload whose event-type field is absent, non-string,
or outside the seven recognized kinds makes `on_action` return with the
recorder state unchanged: no step, no sequence number, no buffer drain,
no screenshot request. -/
theorem unrecognized_event_type_noop (s : Recorder) (d : Payload)
    (h : action_type_of d = none) :
    on_action s d = s := by
  by_cases hr : s.is_recording = true
  · simp [on_action, on_action_begin, hr, h]
  · simp [on_action, on_action_begin, hr]

/-- Witness for C10 at the `hover` payload. -/
theorem unrecognized_event_type_noop_witness :
    action_type_of hoverPayload = none ∧
    on_action (start_recording initRecorder) hoverPayload = start_recording initRecorder :=
  ⟨by decide, unrecognized_event_type_noop (start_recording initRecorder) hoverPayload (by decide)⟩

/-! ### C7 — stop idempotence -/

/-- C7: stopping is idempotent and safe: a second consecutive stop is a
no-op on the whole state (in particular no second export attempt);
stopping while idle only signals completion and performs no export; the
first stop while recording exports exactly once, or — with zero steps —
skips the export and reports the no-op. -/
theorem stop_recording_idempotent (s : Recorder) :
    stop_recording (stop_recording s) = stop_recording s ∧
    (s.is_recording = false →
      stop_recording s = { s with recording_complete := true }) ∧
    (s.is_recording = true → s.steps = [] →
      (stop_recording s).export_runs = s.export_runs ∧
      (stop_recording s).skip_reported = true) ∧
    (s.is_recording = true → s.steps ≠ [] →
      (stop_recording s).export_runs = s.export_runs + 1) := by
  by_cases hr : s.is_recording = true
  · by_cases hs : s.steps = []
    · simp [stop_recording, export_testcase, hr, hs]
    · simp [stop_recording, export_testcase, hr, hs]
  · simp [stop_recording, hr]

/-- Witness for C7 at a concrete recording state with one step. -/
theorem stop_recording_idempotent_witness :
    demoInterleaved.recorder.is_recording = true ∧
    demoInterleaved.recorder.steps ≠ [] ∧
    stop_recording (stop_recording demoInterleaved.recorder)
      = stop_recording demoInterleaved.recorder ∧
    (stop_recording demoInterleaved.recorder).export_runs
      = demoInterleaved.recorder.export_runs + 1 :=
  ⟨by decide, by decide,
   (stop_recording_idempotent demoInterleaved.recorder).1,
   (stop_recording_idempotent demoInterleaved.recorder).2.2.2 (by decide) (by decide)⟩

/-! ### C6 — export failure -/

def demoTestCase : TestCase := { name := "demo" }

def okExporter (path : String) : TestCase → Except String String := fun _ => .ok path

def failingExporter : TestCase → Except String String := fun _ => .error "disk full"

/-- The outputs of a list of exporters when every one of them succeeds on
the snapshot. -/
def exporterOutputs (snap : TestCase) :
    List (TestCase → Except String String) → Option (List String)
  | [] => some []
  | e :: rest =>
    match e snap with
    | .error _ => none
    | .ok o => (exporterOutputs snap rest).map fun outs => o :: outs

/-- C6 counterexample: with the first exporter raising, the remaining two
exporters do not run (no outputs are produced) and the failure propagates
out of the export phase — where the claim expects the remaining exporters
to still export and the failure not to propagate. -/
theorem export_failure_counterexample :
    ¬ ((run_exporters demoTestCase
          [failingExporter, okExporter "testcase.md", okExporter "testcase.html"]).1
          = ["testcase.md", "testcase.html"] ∧
       (run_exporters demoTestCase
          [failingExporter, okExporter "testcase.md", okExporter "testcase.html"]).2
          = none) := by
  decide

/-- C6 amended: `_export_testcase` runs the exporters in sequence with no
exception handling, so when one exporter raises, the exporters after it
do not run and the exception propagates out of the export phase; only the
outputs of the exporters before the failure are produced (a partial
export). -/
theorem export_failure_propagates (snap : TestCase)
    (pre post : List (TestCase → Except String String))
    (e : TestCase → Except String String)
    (outs : List String) (msg : String)
    (hpre : exporterOutputs snap pre = some outs)
    (he : e snap = .error msg) :
    run_exporters snap (pre ++ e :: post) = (outs, some msg) := by
  induction pre generalizing outs with
  | nil =>
    simp only [exporterOutputs, Option.some.injEq] at hpre
    subst hpre
    simp [run_exporters, he]
  | cons f rest ih =>
    rcases hf : f snap with m | o
    · simp [exporterOutputs, hf] at hpre
    · rcases hrest : exporterOutputs snap rest with _ | routs
      · simp [exporterOutputs, hf, hrest] at hpre
      · simp only [exporterOutputs, hf, hrest, Option.map_some] at hpre
        obtain rfl : o :: routs = outs := by simpa using hpre
        simp [run_exporters, hf, ih routs hrest]

/-- Witness for the amended C6: JSON succeeds, Markdown raises, HTML does
not run. -/
theorem export_failure_propagates_witness :
    exporterOutputs demoTestCase [okExporter "testcase.json"] = some ["testcase.json"] ∧
    failingExporter demoTestCase = .error "disk full" ∧
    run_exporters demoTestCase
        ([okExporter "testcase.json"] ++ failingExporter :: [okExporter "testcase.html"])
      = (["testcase.json"], some "disk full") :=
  ⟨by rfl, by rfl,
   export_failure_propagates demoTestCase [okExporter "testcase.json"]
     [okExporter "testcase.html"] failingExporter ["testcase.json"] "disk full"
     (by rfl) (by rfl)⟩

/-! ### C8 — one pending request per URL -/

/-- The keys of the pending-request map are pairwise distinct. -/
def pendingKeysNodup (s : Recorder) : Prop :=
  (s.pending_requests.map Prod.fst).Nodup

theorem dictGet_none_no_key {β : Type} (m : List (String × β)) (k : String)
    (h : dictGet m k = none) : ∀ kv ∈ m, kv.1 ≠ k := by
  induction m with
  | nil => simp
  | cons a rest ih =>
    intro kv hkv
    by_cases ha : a.1 = k
    · simp [dictGet, ha] at h
    · rcases List.mem_cons.mp hkv with h1 | h1
      · subst h1; exact ha
      · exact ih (by simpa [dictGet, ha] using h) kv h1

theorem dictGet_map_replace {β : Type} (m : List (String × β)) (k : String) (v : β)
    (h : (dictGet m k).isSome) :
    dictGet (m.map fun kv => if kv.1 = k then (k, v) else kv) k = some v := by
  induction m with
  | nil => simp [dictGet] at h
  | cons a rest ih =>
    by_cases ha : a.1 = k
    · simp [dictGet, ha]
    · simp only [List.map_cons, if_neg ha]
      simp only [dictGet, if_neg ha]
      exact ih (by simpa [dictGet, ha] using h)

theorem dictGet_append_last {β : Type} (m : List (String × β)) (k : String) (v : β)
    (h : dictGet m k = none) : dictGet (m ++ [(k, v)]) k = some v := by
  induction m with
  | nil => simp [dictGet]
  | cons a rest ih =>
    by_cases ha : a.1 = k
    · simp [dictGet, ha] at h
    · simp only [List.cons_append, dictGet, if_neg ha]
      exact ih (by simpa [dictGet, ha] using h)

theorem dictInsert_get {β : Type} (m : List (String × β)) (k : String) (v : β) :
    dictGet (dictInsert m k v) k = some v := by
  unfold dictInsert
  split
  · next hsome => exact dictGet_map_replace m k v hsome
  · next hnone =>
    exact dictGet_append_last m k v (Option.not_isSome_iff_eq_none.mp hnone)

theorem dictInsert_value_unique {β : Type} (m : List (String × β)) (k : String) (v v2 : β)
    (h : (k, v2) ∈ dictInsert m k v) : v2 = v := by
  unfold dictInsert at h
  split at h
  · obtain ⟨kv, hmem, heq⟩ := List.mem_map.mp h
    by_cases ha : kv.1 = k
    · rw [if_pos ha] at heq
      exact (congrArg Prod.snd heq).symm
    · rw [if_neg ha] at heq
      exact absurd (by rw [heq]) ha
  · next hnone =>
    rcases List.mem_append.mp h with h1 | h1
    · exact absurd rfl
        (dictGet_none_no_key m k (Option.not_isSome_iff_eq_none.mp hnone) (k, v2) h1)
    · exact congrArg Prod.snd (List.mem_singleton.mp h1)

theorem dictInsert_keys_nodup {β : Type} (m : List (String × β)) (k : String) (v : β)
    (h : (m.map Prod.fst).Nodup) : ((dictInsert m k v).map Prod.fst).Nodup := by
  unfold dictInsert
  split
  · have hkeys : (m.map fun kv => if kv.1 = k then (k, v) else kv).map Prod.fst
        = m.map Prod.fst := by
      rw [List.map_map]
      apply List.map_congr_left
      intro a _
      by_cases ha : a.1 = k <;> simp [ha]
    rw [hkeys]; exact h
  · next hnone =>
    have hk : ∀ kv ∈ m, kv.1 ≠ k :=
      dictGet_none_no_key m k (Option.not_isSome_iff_eq_none.mp hnone)
    rw [List.map_append]
    simp only [List.map_cons, List.map_nil]
    refine List.Nodup.append h (List.nodup_singleton k) ?_
    intro x hx hx1
    simp only [List.mem_singleton] at hx1
    obtain ⟨kv, hkv, rfl⟩ := List.mem_map.mp hx
    exact hk kv hkv hx1

theorem dictPop_keys_nodup {β : Type} (m : List (String × β)) (k : String)
    (h : (m.map Prod.fst).Nodup) : ((dictPop m k).map Prod.fst).Nodup :=
  h.sublist (List.Sublist.map Prod.fst (List.filter_sublist m))

theorem on_console_message_pending (s : Recorder) (cid : Nat) :
    (on_console_message s cid).pending_requests = s.pending_requests := by
  unfold on_console_message; split <;> rfl

theorem on_page_error_pending (s : Recorder) (eid : Nat) :
    (on_page_error s eid).pending_requests = s.pending_requests := by
  unfold on_page_error; split <;> rfl

theorem capture_body_settle_pending (s : Recorder) (rid : Nat) :
    (capture_body_settle s rid).pending_requests = s.pending_requests := by
  unfold capture_body_settle; split <;> rfl

theorem start_recording_pending (s : Recorder) :
    (start_recording s).pending_requests = s.pending_requests := by
  unfold start_recording; split <;> rfl

theorem stop_recording_pending (s : Recorder) :
    (stop_recording s).pending_requests = s.pending_requests := by
  by_cases hr : s.is_recording = true
  · by_cases hs : s.steps = [] <;> simp [stop_recording, export_testcase, hr, hs]
  · simp [stop_recording, hr]

theorem on_action_begin_pending (s : Recorder) (data : Payload) :
    (on_action_begin s data).2.pending_requests = s.pending_requests := by
  unfold on_action_begin
  split
  · rfl
  · rcases action_type_of data with _ | a
    · rfl
    · simp only
      rcases mkElementInfo (parse_element_info data) with _ | eli <;> rfl

theorem on_action_finish_pending (s : Recorder) (t : InFlightAction) :
    (on_action_finish s t).pending_requests = s.pending_requests := rfl

theorem pendingKeysNodup_of_eq {a b : Recorder}
    (hab : b.pending_requests = a.pending_requests)
    (h : pendingKeysNodup a) : pendingKeysNodup b := by
  unfold pendingKeysNodup at *
  rw [hab]; exact h

theorem applyOp_pendingKeysNodup (s : Sys) (op : ROp)
    (h : pendingKeysNodup s.recorder) : pendingKeysNodup (applyOp s op).recorder := by
  cases op with
  | consoleMsg cid =>
    show pendingKeysNodup (on_console_message s.recorder cid)
    exact pendingKeysNodup_of_eq (on_console_message_pending s.recorder cid) h
  | pageError eid =>
    show pendingKeysNodup (on_page_error s.recorder eid)
    exact pendingKeysNodup_of_eq (on_page_error_pending s.recorder eid) h
  | request url rid =>
    show pendingKeysNodup (on_request s.recorder url rid)
    unfold on_request
    split
    · exact h
    · split
      · exact h
      · exact dictInsert_keys_nodup _ _ _ h
  | response url api =>
    show pendingKeysNodup (on_response s.recorder url api)
    unfold on_response
    split
    · exact h
    · split
      · exact h
      · split
        · exact dictPop_keys_nodup _ _ h
        · exact dictPop_keys_nodup _ _ h
  | requestFailed url =>
    show pendingKeysNodup (on_request_failed s.recorder url)
    unfold on_request_failed
    split
    · exact h
    · split
      · exact h
      · exact dictPop_keys_nodup _ _ h
  | bodySettle rid =>
    show pendingKeysNodup (capture_body_settle s.recorder rid)
    exact pendingKeysNodup_of_eq (capture_body_settle_pending s.recorder rid) h
  | actionBegin data =>
    show pendingKeysNodup (on_action_begin s.recorder data).2
    exact pendingKeysNodup_of_eq (on_action_begin_pending s.recorder data) h
  | actionFinish i =>
    rcases hti : s.tasks[i]? with _ | t
    · simp only [applyOp, List.get?_eq_getElem?, hti]
      exact h
    · simp only [applyOp, List.get?_eq_getElem?, hti]
      exact pendingKeysNodup_of_eq (on_action_finish_pending s.recorder t) h
  | startRec =>
    show pendingKeysNodup (start_recording s.recorder)
    exact pendingKeysNodup_of_eq (start_recording_pending s.recorder) h
  | stopRec =>
    show pendingKeysNodup (stop_recording s.recorder)
    exact pendingKeysNodup_of_eq (stop_recording_pending s.recorder) h

theorem runOps_pendingKeysNodup (ops : List ROp) (s : Sys)
    (h : pendingKeysNodup s.recorder) : pendingKeysNodup (runOps s ops).recorder := by
  induction ops generalizing s with
  | nil => simpa [runOps]
  | cons op rest ih =>
    have h1 := applyOp_pendingKeysNodup s op h
    simpa [runOps] using ih (applyOp s op) h1

/-- C8: (i) from the initial state, every interleaving of handler calls
keeps the pending-request map holding at most one outstanding event per
distinct URL; (ii) registering a request for a URL overwrites any pending
entry for that URL — afterwards the only correlation data stored for the
URL is the new event; (iii) a response or failure whose URL has no
pending entry leaves the recorder completely unchanged (the event is
dropped without being created). -/
theorem pending_request_per_url :
    (∀ ops : List ROp, pendingKeysNodup (runOps {} ops).recorder) ∧
    (∀ (s : Recorder) (url : String) (rid : Nat),
      s.is_recording = true → skip_url url = false →
        dictGet (on_request s url rid).pending_requests url = some rid ∧
        ∀ rid2, (url, rid2) ∈ (on_request s url rid).pending_requests → rid2 = rid) ∧
    (∀ (s : Recorder) (url : String) (api : Bool),
      dictGet s.pending_requests url = none →
        on_response s url api = s ∧ on_request_failed s url = s) := by
  refine ⟨?_, ?_, ?_⟩
  · intro ops
    exact runOps_pendingKeysNodup ops {} (by simp [pendingKeysNodup, initRecorder])
  · intro s url rid hr hskip
    have hpend : (on_request s url rid).pending_requests
        = dictInsert s.pending_requests url rid := by
      unfold on_request
      simp [hr, hskip]
    rw [hpend]
    exact ⟨dictInsert_get s.pending_requests url rid,
      fun rid2 h => dictInsert_value_unique s.pending_requests url rid rid2 h⟩
  · intro s url api hnone
    constructor
    · unfold on_response
      split
      · rfl
      · simp [hnone]
    · unfold on_request_failed
      split
      · rfl
      · simp [hnone]

/-- Witness for C8 at concrete states: a double registration of URL `u`,
an overwrite leaving only the newest event, and a miss-drop on the empty
map. -/
theorem pending_request_per_url_witness :
    pendingKeysNodup (runOps {} [.startRec, .request "u" 1, .request "u" 2]).recorder ∧
    ((start_recording initRecorder).is_recording = true ∧ skip_url "u" = false) ∧
    dictGet (on_request (start_recording initRecorder) "u" 3).pending_requests "u" = some 3 ∧
    dictGet initRecorder.pending_requests "u" = none ∧
    on_response initRecorder "u" true = initRecorder :=
  ⟨pending_request_per_url.1 [.startRec, .request "u" 1, .request "u" 2],
   ⟨by decide, by decide⟩,
   (pending_request_per_url.2.1 (start_recording initRecorder) "u" 3
      (by decide) (by decide)).1,
   by decide,
   (pending_request_per_url.2.2 initRecorder "u" true (by decide)).1⟩

/-! ### C3 — sequence numbering -/

/-- An `on_action` call that drops its payload leaves the recorder
untouched. -/
theorem on_action_begin_none (s : Recorder) (d : Payload)
    (h : (on_action_begin s d).1 = none) : (on_action_begin s d).2 = s := by
  by_cases hr : s.is_recording = true
  · rcases hat : action_type_of d with _ | a
    · simp [on_action_begin, hr, hat]
    · rcases hmk : mkElementInfo (parse_element_info d) with _ | eli
      · simp [on_action_begin, hr, hat, hmk]
      · simp [on_action_begin, hr, hat, hmk] at h
  · simp [on_action_begin, hr]

/-- The synchronous prefix of `on_action` changes nothing but the
screenshot-request log, and a continuation it returns carries the
sequence number `steps.length + 1` computed before the suspension. -/
theorem on_action_begin_frame (s : Recorder) (d : Payload) :
    (on_action_begin s d).2.is_recording = s.is_recording ∧
    (on_action_begin s d).2.steps = s.steps ∧
    (on_action_begin s d).2.console_logs = s.console_logs ∧
    (on_action_begin s d).2.network_requests = s.network_requests ∧
    (on_action_begin s d).2.step_console_logs = s.step_console_logs ∧
    (on_action_begin s d).2.step_network_requests = s.step_network_requests ∧
    (on_action_begin s d).2.inflight_bodies = s.inflight_bodies ∧
    ∀ t, (on_action_begin s d).1 = some t → t.step_number = s.steps.length + 1 := by
  by_cases hr : s.is_recording = true
  · rcases hat : action_type_of d with _ | a
    · simp [on_action_begin, hr, hat]
    · rcases hmk : mkElementInfo (parse_element_info d) with _ | eli
      · simp [on_action_begin, hr, hat, hmk]
      · simp [on_action_begin, hr, hat, hmk]
  · simp [on_action_begin, hr]

/-- C3 counterexample: two `on_action` calls that interleave at their
screenshot suspension points both read `len(self.steps) + 1` before
either appends, so both steps get sequence number 1 — the numbering is
not contiguous (and not repeat-free) under interleaving at the suspension
points. -/
theorem interleaved_sequence_numbers_counterexample :
    demoInterleaved.recorder.steps.map Step.number = [1, 1] ∧
    ¬ seq_contiguous demoInterleaved.recorder.steps := by
  constructor
  · decide
  · unfold seq_contiguous
    decide

theorem seq_contiguous_append (l : List Step) (st : Step)
    (h : seq_contiguous l) (hn : st.number = l.length + 1) :
    seq_contiguous (l ++ [st]) := by
  unfold seq_contiguous at *
  rw [List.map_append, List.length_append]
  simp only [List.map_cons, List.map_nil, List.length_cons, List.length_nil]
  rw [h, hn, List.range'_concat]
  simp [Nat.add_comm]

theorem serialRun_contiguous (ds : List Payload) (s : Sys)
    (ht : s.tasks = []) (hc : seq_contiguous s.recorder.steps) :
    (serialRun s ds).tasks = [] ∧ seq_contiguous (serialRun s ds).recorder.steps := by
  induction ds generalizing s with
  | nil => exact ⟨ht, hc⟩
  | cons d rest ih =>
    have hstep : (serial_on_action s d).tasks = []
        ∧ seq_contiguous (serial_on_action s d).recorder.steps := by
      rcases hb : on_action_begin s.recorder d with ⟨t?, r⟩
      rcases t? with _ | t
      · have hr : r = s.recorder := by
          have h1 := on_action_begin_none s.recorder d (by rw [hb])
          rw [hb] at h1
          exact h1
        subst hr
        have hid : serial_on_action s d = s := by
          simp [serial_on_action, applyOp, hb, ht]
          rw [← ht]
        rw [hid]
        exact ⟨ht, hc⟩
      · have hframe := on_action_begin_frame s.recorder d
        rw [hb] at hframe
        have hnum : t.step_number = s.recorder.steps.length + 1 :=
          hframe.2.2.2.2.2.2.2 t rfl
        have hsteps : r.steps = s.recorder.steps := hframe.2.1
        simp only [serial_on_action, applyOp, hb, Option.toList_some, ht, List.nil_append,
          List.getElem?_cons_zero, List.get?_eq_getElem?, List.eraseIdx_cons_zero]
        refine ⟨trivial, ?_⟩
        show seq_contiguous (on_action_finish r t).steps
        unfold on_action_finish
        simp only
        apply seq_contiguous_append
        · rw [hsteps]; exact hc
        · simp [hnum, hsteps]
    exact ih (serial_on_action s d) hstep.1 hstep.2

/-- C3 amended: when each `on_action` call runs to completion before the
next event is handled (serial FIFO processing, no interleaving at the
suspension points), the sequence numbers of the step list form a
contiguous 1..N run in acceptance order, no matter how many payloads were
dropped as malformed or unrecognized (dropped payloads consume no
number). -/
theorem serial_sequence_numbers_contiguous (ds : List Payload) :
    seq_contiguous (serialRun sessionStart ds).recorder.steps :=
  (serialRun_contiguous ds sessionStart rfl (by unfold seq_contiguous; decide)).2

/-! ### C2 — windowing completeness -/

/-- The disjoint-union invariant: the concatenation of all finalized
steps' network (resp. console) events followed by the open window buffer
is exactly the session log of observed network (resp. console) events —
nothing lost, nothing duplicated. -/
def window_invariant (s : Recorder) : Prop :=
  (s.steps.map Step.network_requests).flatten ++ s.step_network_requests
      = s.network_requests ∧
  (s.steps.map Step.console_logs).flatten ++ s.step_console_logs
      = s.console_logs

theorem stop_recording_lists (s : Recorder) :
    (stop_recording s).steps = s.steps ∧
    (stop_recording s).network_requests = s.network_requests ∧
    (stop_recording s).console_logs = s.console_logs ∧
    (stop_recording s).step_network_requests = s.step_network_requests ∧
    (stop_recording s).step_console_logs = s.step_console_logs := by
  by_cases hr : s.is_recording = true
  · by_cases hs : s.steps = [] <;> simp [stop_recording, export_testcase, hr, hs]
  · simp [stop_recording, hr]

theorem applyOp_window_invariant (s : Sys) (op : SessionOp)
    (h : window_invariant s.recorder) :
    window_invariant (applyOp s op.toROp).recorder := by
  obtain ⟨hn, hc⟩ := h
  cases op with
  | consoleMsg cid =>
    show window_invariant (on_console_message s.recorder cid)
    unfold on_console_message
    split
    · exact ⟨hn, hc⟩
    · refine ⟨hn, ?_⟩
      show _ ++ (s.recorder.step_console_logs ++ [cid])
          = s.recorder.console_logs ++ [cid]
      rw [← List.append_assoc, hc]
  | pageError eid =>
    show window_invariant (on_page_error s.recorder eid)
    unfold on_page_error
    split
    · exact ⟨hn, hc⟩
    · exact ⟨hn, hc⟩
  | request url rid =>
    show window_invariant (on_request s.recorder url rid)
    unfold on_request
    split
    · exact ⟨hn, hc⟩
    · split
      · exact ⟨hn, hc⟩
      · exact ⟨hn, hc⟩
  | response url api =>
    show window_invariant (on_response s.recorder url api)
    unfold on_response
    split
    · exact ⟨hn, hc⟩
    · split
      · exact ⟨hn, hc⟩
      · split
        · exact ⟨hn, hc⟩
        · refine ⟨?_, hc⟩
          show _ ++ (s.recorder.step_network_requests ++ [_])
              = s.recorder.network_requests ++ [_]
          rw [← List.append_assoc, hn]
  | requestFailed url =>
    show window_invariant (on_request_failed s.recorder url)
    unfold on_request_failed
    split
    · exact ⟨hn, hc⟩
    · split
      · exact ⟨hn, hc⟩
      · refine ⟨?_, hc⟩
        show _ ++ (s.recorder.step_network_requests ++ [_])
            = s.recorder.network_requests ++ [_]
        rw [← List.append_assoc, hn]
  | bodySettle rid =>
    show window_invariant (capture_body_settle s.recorder rid)
    unfold capture_body_settle
    split
    · refine ⟨?_, hc⟩
      show _ ++ (s.recorder.step_network_requests ++ [rid])
          = s.recorder.network_requests ++ [rid]
      rw [← List.append_assoc, hn]
    · exact ⟨hn, hc⟩
  | actionBegin data =>
    show window_invariant (on_action_begin s.recorder data).2
    have hframe := on_action_begin_frame s.recorder data
    constructor
    · rw [hframe.2.1, hframe.2.2.2.2.2.1, hframe.2.2.2.1]; exact hn
    · rw [hframe.2.1, hframe.2.2.2.2.1, hframe.2.2.1]; exact hc
  | actionFinish i =>
    rcases hti : s.tasks[i]? with _ | t
    · simp only [SessionOp.toROp, applyOp, List.get?_eq_getElem?, hti]
      exact ⟨hn, hc⟩
    · simp only [SessionOp.toROp, applyOp, List.get?_eq_getElem?, hti]
      show window_invariant (on_action_finish s.recorder t)
      unfold on_action_finish
      constructor
      · show (List.map Step.network_requests (s.recorder.steps ++ [_])).flatten ++ []
            = s.recorder.network_requests
        rw [List.map_append, List.flatten_append, List.append_nil]
        simpa using hn
      · show (List.map Step.console_logs (s.recorder.steps ++ [_])).flatten ++ []
            = s.recorder.console_logs
        rw [List.map_append, List.flatten_append, List.append_nil]
        simpa using hc
  | stopRec =>
    show window_invariant (stop_recording s.recorder)
    obtain ⟨h1, h2, h3, h4, h5⟩ := stop_recording_lists s.recorder
    exact ⟨by rw [h1, h4, h2]; exact hn, by rw [h1, h5, h3]; exact hc⟩

theorem runSession_window_invariant (ops : List SessionOp) (s : Sys)
    (h : window_invariant s.recorder) :
    window_invariant (runOps s (ops.map SessionOp.toROp)).recorder := by
  induction ops generalizing s with
  | nil => simpa [runOps]
  | cons op rest ih =>
    have h1 := applyOp_window_invariant s op h
    simpa [runOps] using ih (applyOp s op.toROp) h1

/-- A reachable recorder that has stopped while one response-body fetch
is still in flight. -/
def demoStoppedInflight : Recorder :=
  (runOps {} [.startRec, .request "u" 7, .response "u" true, .stopRec]).recorder

/-- C2: (i) along every interleaving of session operations after a start,
the step windows and the open buffer partition the observed session log
exactly — the concatenation of all steps' network (resp. console) events
plus the open buffer equals the full observed log, so no event is lost
and none lands in two steps; (ii) a response-body fetch that settles
(even after recording has stopped — there is no recording guard in the
`finally` block) appends its event to the session log and to the open
buffer, which at that point is the session-tail overflow bucket. -/
theorem window_completeness :
    (∀ ops : List SessionOp, window_invariant (runSession ops).recorder) ∧
    (∀ (s : Recorder) (rid : Nat), rid ∈ s.inflight_bodies →
      rid ∈ (capture_body_settle s rid).network_requests ∧
      rid ∈ (capture_body_settle s rid).step_network_requests) := by
  constructor
  · intro ops
    exact runSession_window_invariant ops sessionStart
      (by constructor <;> decide)
  · intro s rid hmem
    unfold capture_body_settle
    rw [if_pos (by simpa using hmem)]
    exact ⟨List.mem_append_right _ (List.mem_singleton.mpr rfl),
      List.mem_append_right _ (List.mem_singleton.mpr rfl)⟩

/-- Witness for C2: the stopped recorder with one in-flight body fetch
still retains the event once the fetch settles. -/
theorem window_completeness_witness :
    7 ∈ demoStoppedInflight.inflight_bodies ∧
    demoStoppedInflight.is_recording = false ∧
    (7 ∈ (capture_body_settle demoStoppedInflight 7).network_requests ∧
     7 ∈ (capture_body_settle demoStoppedInflight 7).step_network_requests) :=
  ⟨by decide, by decide, window_completeness.2 demoStoppedInflight 7 (by decide)⟩

/-! ### C4 — element addressor: path and tree infrastructure -/

theorem mem_childPaths {k : Nat} {cs : List Dom} {q : List Nat} :
    q ∈ childPaths k cs ↔
      ∃ i c p, cs[i]? = some c ∧ q = (k + i) :: p ∧ p ∈ subtreePaths c := by
  induction cs generalizing k with
  | nil => simp [childPaths]
  | cons c0 cs ih =>
    rw [childPaths]
    simp only [List.mem_append, List.mem_map, ih]
    constructor
    · rintro (⟨p, hp, rfl⟩ | ⟨i, c, p, hget, rfl, hp⟩)
      · exact ⟨0, c0, p, by simp, by simp, hp⟩
      · refine ⟨i + 1, c, p, by simpa using hget, ?_, hp⟩
        congr 1
        omega
    · rintro ⟨i, c, p, hget, rfl, hp⟩
      cases i with
      | zero =>
        left
        refine ⟨p, ?_, by simp⟩
        have hc : c0 = c := by simpa using hget
        rw [hc]
        exact hp
      | succ i =>
        right
        refine ⟨i, c, p, by simpa using hget, ?_, hp⟩
        congr 1
        omega

theorem fetch_cons (t idv ti : String) (cl : List String) (cs : List Dom)
    (j : Nat) (p : List Nat) :
    fetch (Dom.el t idv ti cl cs) (j :: p)
      = match cs[j]? with
        | some c => fetch c p
        | none => none := rfl

theorem mem_subtreePaths {d : Dom} {q : List Nat} :
    q ∈ subtreePaths d ↔ (fetch d q).isSome := by
  induction q generalizing d with
  | nil =>
    cases d with
    | el t idv ti cl cs => simp [subtreePaths, fetch]
  | cons j p ih =>
    cases d with
    | el t idv ti cl cs =>
      rw [subtreePaths]
      simp only [List.mem_cons, reduceCtorEq, false_or, mem_childPaths]
      rw [fetch_cons]
      constructor
      · rintro ⟨i2, c, p2, hget, heq, hp⟩
        have h1 : j = 0 + i2 := (List.cons.injEq _ _ _ _ ▸ heq).1
        have h2 : p = p2 := (List.cons.injEq _ _ _ _ ▸ heq).2
        have h3 : i2 = j := by omega
        subst h2
        subst h3
        rw [hget]
        exact ih.mp hp
      · intro hf
        rcases hget : cs[j]? with _ | c
        · rw [hget] at hf; simp at hf
        · rw [hget] at hf
          exact ⟨j, c, p, hget, by simp, ih.mpr hf⟩

mutual
theorem subtreePaths_nodup : (d : Dom) → (subtreePaths d).Nodup
  | .el t i ti cl cs => by
    rw [subtreePaths]
    refine List.nodup_cons.mpr ⟨?_, childPaths_nodup 0 cs⟩
    intro hmem
    obtain ⟨i2, c, p, _, heq, _⟩ := mem_childPaths.mp hmem
    exact List.noConfusion heq
theorem childPaths_nodup : (k : Nat) → (cs : List Dom) → (childPaths k cs).Nodup
  | k, [] => by rw [childPaths]; exact List.nodup_nil
  | k, c :: cs => by
    rw [childPaths]
    refine List.Nodup.append ?_ (childPaths_nodup (k + 1) cs) ?_
    · refine (subtreePaths_nodup c).map ?_
      intro p1 p2 h12
      exact (List.cons.injEq _ _ _ _ ▸ h12).2
    · intro x hx1 hx2
      obtain ⟨p, _, rfl⟩ := List.mem_map.mp hx1
      obtain ⟨i2, c2, p2, _, heq, _⟩ := mem_childPaths.mp hx2
      have hk : k = k + 1 + i2 := (List.cons.injEq _ _ _ _ ▸ heq).1
      omega
end

theorem fetch_append (d : Dom) (p q : List Nat) :
    fetch d (p ++ q) = (fetch d p).bind fun n => fetch n q := by
  induction p generalizing d with
  | nil => simp [fetch]
  | cons i p ih =>
    show (match d.children[i]? with
        | some c => fetch c (p ++ q)
        | none => none)
      = (match d.children[i]? with
        | some c => fetch c p
        | none => none).bind fun n => fetch n q
    rcases d.children[i]? with _ | c
    · simp
    · simp [ih]

theorem fetch_singleton (n : Dom) (j : Nat) : fetch n [j] = n.children[j]? := by
  show (match n.children[j]? with
      | some c => fetch c []
      | none => none) = n.children[j]?
  rcases n.children[j]? with _ | c <;> simp [fetch]

/-- Decompose fetching a snoc path: the parent exists and the node is its
`j`-th child. -/
theorem fetch_snoc (d : Dom) (p : List Nat) (j : Nat) (el : Dom)
    (h : fetch d (p ++ [j]) = some el) :
    ∃ par, fetch d p = some par ∧ par.children[j]? = some el := by
  rw [fetch_append] at h
  rcases hp : fetch d p with _ | par
  · rw [hp] at h; simp at h
  · rw [hp] at h
    simp only [Option.some_bind] at h
    rw [fetch_singleton] at h
    exact ⟨par, rfl, h⟩

theorem parent_mem_subtreePaths {d : Dom} {p : List Nat} {j : Nat}
    (h : p ++ [j] ∈ subtreePaths d) : p ∈ subtreePaths d := by
  have hf := mem_subtreePaths.mp h
  rcases hel : fetch d (p ++ [j]) with _ | el
  · rw [hel] at hf; simp at hf
  · obtain ⟨par, hpar, _⟩ := fetch_snoc d p j el hel
    exact mem_subtreePaths.mpr (by rw [hpar]; rfl)

theorem filter_eq_singleton {α : Type} (l : List α) (P : α → Bool) (a : α)
    (hnd : l.Nodup) (ha : a ∈ l) (hPa : P a = true)
    (huniq : ∀ b ∈ l, P b = true → b = a) :
    l.filter P = [a] := by
  induction l with
  | nil => simp at ha
  | cons x xs ih =>
    have hnd2 := List.nodup_cons.mp hnd
    rcases List.mem_cons.mp ha with rfl | hmem
    · rw [List.filter_cons_of_pos hPa]
      have hnone : xs.filter P = [] := by
        rw [List.filter_eq_nil_iff]
        intro b hb hPb
        exact absurd (huniq b (List.mem_cons_of_mem _ hb) hPb) (by
          intro hba
          exact hnd2.1 (hba ▸ hb))
      rw [hnone]
    · have hx : P x = false := by
        rcases hPx : P x with _ | _
        · rfl
        · exact absurd (huniq x (List.mem_cons_self _ _) hPx) (by
            intro hxa
            exact hnd2.1 (hxa ▸ hmem))
      rw [List.filter_cons_of_neg (by simp [hx])]
      exact ih hnd2.2 hmem fun b hb hPb => huniq b (List.mem_cons_of_mem _ hb) hPb

theorem eq_singleton_of_length_one {α : Type} (l : List α) (a : α)
    (hlen : l.length = 1) (ha : a ∈ l) : l = [a] := by
  cases l with
  | nil => simp at ha
  | cons x xs =>
    cases xs with
    | nil => simpa using (List.mem_singleton.mp ha).symm
    | cons y ys => simp at hlen

theorem filterMap_nodup_inj {α β : Type} (f : α → Option β) (l : List α)
    (hl : l.Nodup) (hf : (l.filterMap f).Nodup) :
    ∀ a ∈ l, ∀ b ∈ l, ∀ v, f a = some v → f b = some v → a = b := by
  induction l with
  | nil => simp
  | cons x xs ih =>
    have hlx := List.nodup_cons.mp hl
    intro a ha b hb v hfa hfb
    rcases hfx : f x with _ | vx
    · have hf2 : (xs.filterMap f).Nodup := by
        rw [List.filterMap_cons_none hfx] at hf
        exact hf
      rcases List.mem_cons.mp ha with rfl | ha2
      · rw [hfx] at hfa; exact absurd hfa (by simp)
      · rcases List.mem_cons.mp hb with rfl | hb2
        · rw [hfx] at hfb; exact absurd hfb (by simp)
        · exact ih hlx.2 hf2 a ha2 b hb2 v hfa hfb
    · rw [List.filterMap_cons_some hfx] at hf
      have hf2 := List.nodup_cons.mp hf
      rcases List.mem_cons.mp ha with rfl | ha2
      · rcases List.mem_cons.mp hb with rfl | hb2
        · rfl
        · rw [hfx] at hfa
          have hvx : vx = v := by simpa using hfa
          exact absurd (List.mem_filterMap.mpr ⟨b, hb2, hvx ▸ hfb⟩) hf2.1
      · rcases List.mem_cons.mp hb with rfl | hb2
        · rw [hfx] at hfb
          have hvx : vx = v := by simpa using hfb
          exact absurd (List.mem_filterMap.mpr ⟨a, ha2, hvx ▸ hfa⟩) hf2.1
        · exact ih hlx.2 hf2.2 a ha2 b hb2 v hfa hfb

/-- The number of same-tag children strictly before index `j` (what
`:nth-of-type` counts, minus one). -/
def tagPos (cs : List Dom) (t : String) (j : Nat) : Nat :=
  ((cs.take j).filter fun c => c.tag == t).length

theorem tagPos_succ (cs : List Dom) (t : String) (j : Nat) (c : Dom)
    (hget : cs[j]? = some c) (htag : c.tag = t) :
    tagPos cs t (j + 1) = tagPos cs t j + 1 := by
  unfold tagPos
  rw [List.take_succ, hget, List.filter_append]
  simp [htag]

theorem tagPos_mono (cs : List Dom) (t : String) (j1 j2 : Nat) (h : j1 ≤ j2) :
    tagPos cs t j1 ≤ tagPos cs t j2 := by
  unfold tagPos
  have hsplit : cs.take j2 = cs.take j1 ++ (cs.take j2).drop j1 := by
    have h1 : (cs.take j2).take j1 = cs.take j1 := by
      rw [List.take_take]
      congr 1
      omega
    rw [← h1]
    exact (List.take_append_drop _ _).symm
  rw [hsplit, List.filter_append, List.length_append]
  omega

theorem tagPos_lt_total (cs : List Dom) (t : String) (j : Nat) (c : Dom)
    (hget : cs[j]? = some c) (htag : c.tag = t) :
    tagPos cs t j < (cs.filter fun c => c.tag == t).length := by
  have hj : j < cs.length := by
    by_contra hcon
    rw [List.getElem?_eq_none (by omega)] at hget
    exact Option.noConfusion hget
  have hsplit : cs = cs.take j ++ (c :: cs.drop (j + 1)) := by
    have h1 := List.take_append_drop j cs
    rw [List.drop_eq_getElem_cons hj] at h1
    have h2 : cs[j] = c := by
      have := List.getElem?_eq_getElem hj
      rw [this] at hget
      exact Option.some.injEq _ _ ▸ hget
    rw [h2] at h1
    exact h1.symm
  conv_rhs => rw [hsplit]
  rw [List.filter_append, List.length_append]
  have : (List.filter (fun c => c.tag == t) (c :: cs.drop (j + 1))).length ≥ 1 := by
    rw [List.filter_cons_of_pos (by simp [htag])]
    simp
  unfold tagPos
  omega

/-- Two distinct same-tag child indices have distinct `:nth-of-type`
positions. -/
theorem tagPos_inj (cs : List Dom) (t : String) (j1 j2 : Nat) (c1 c2 : Dom)
    (h1 : cs[j1]? = some c1) (h2 : cs[j2]? = some c2)
    (ht1 : c1.tag = t) (ht2 : c2.tag = t) (hne : j1 ≠ j2) :
    tagPos cs t j1 ≠ tagPos cs t j2 := by
  rcases Nat.lt_or_ge j1 j2 with hlt | hge
  · have ha := tagPos_succ cs t j1 c1 h1 ht1
    have hb := tagPos_mono cs t (j1 + 1) j2 (by omega)
    omega
  · have hlt : j2 < j1 := by omega
    have ha := tagPos_succ cs t j2 c2 h2 ht2
    have hb := tagPos_mono cs t (j2 + 1) j1 (by omega)
    omega

/-- Two distinct same-tag children force the same-tag filter to have at
least two elements. -/
theorem two_same_tag_children (cs : List Dom) (t : String) (j1 j2 : Nat) (c1 c2 : Dom)
    (h1 : cs[j1]? = some c1) (h2 : cs[j2]? = some c2)
    (ht1 : c1.tag = t) (ht2 : c2.tag = t) (hne : j1 ≠ j2) :
    2 ≤ (cs.filter fun c => c.tag == t).length := by
  rcases Nat.lt_or_ge j1 j2 with hlt | hge
  · have ha := tagPos_succ cs t j1 c1 h1 ht1
    have hb := tagPos_mono cs t (j1 + 1) j2 (by omega)
    have hc := tagPos_lt_total cs t j2 c2 h2 ht2
    omega
  · have hlt : j2 < j1 := by omega
    have ha := tagPos_succ cs t j2 c2 h2 ht2
    have hb := tagPos_mono cs t (j2 + 1) j1 (by omega)
    have hc := tagPos_lt_total cs t j1 c1 h1 ht1
    omega

theorem mem_resolveAll {doc : Dom} {sel : Sel} {q : List Nat} :
    q ∈ resolveAll doc sel ↔ q ∈ subtreePaths doc ∧ matchesSel doc sel q = true :=
  List.mem_filter

theorem all_contains_self (l : List String) : (l.all fun c => l.contains c) = true := by
  rw [List.all_eq_true]
  intro c hc
  exact List.elem_iff.mpr hc

theorem getCss_nil (doc : Dom) : getCssSelector doc [] = .bodyTag := by
  rw [getCssSelector]
  simp

theorem getCss_id (doc : Dom) (p : List Nat) (el : Dom) (hne : p ≠ [])
    (hf : fetch doc p = some el) (hid : el.idAttr ≠ "") :
    getCssSelector doc p = .idSel el.idAttr := by
  rw [getCssSelector, dif_neg hne, hf]
  simp [hid]

theorem getCss_testid (doc : Dom) (p : List Nat) (el : Dom) (hne : p ≠ [])
    (hf : fetch doc p = some el) (hid : el.idAttr = "") (hti : el.testid ≠ "") :
    getCssSelector doc p = .testidSel el.testid := by
  rw [getCssSelector, dif_neg hne, hf]
  simp [hid, hti]

theorem getCss_cls (doc : Dom) (p : List Nat) (el : Dom) (hne : p ≠ [])
    (hf : fetch doc p = some el) (hid : el.idAttr = "") (hti : el.testid = "")
    (hcls : (!el.classes.isEmpty
        && (resolveAll doc (.tagCls el.tag el.classes)).length == 1) = true) :
    getCssSelector doc p = .tagCls el.tag el.classes := by
  rw [getCssSelector, dif_neg hne, hf]
  simp [hid, hti, hcls]

theorem getCss_child_single (doc : Dom) (p : List Nat) (el par : Dom) (hne : p ≠ [])
    (hf : fetch doc p = some el) (hid : el.idAttr = "") (hti : el.testid = "")
    (hcls : (!el.classes.isEmpty
        && (resolveAll doc (.tagCls el.tag el.classes)).length == 1) = false)
    (hpar : fetch doc p.dropLast = some par)
    (hsibs : (par.children.filter fun c => c.tag == el.tag).length = 1) :
    getCssSelector doc p = .child (getCssSelector doc p.dropLast) el.tag none := by
  rw [getCssSelector, dif_neg hne, hf]
  simp [hid, hti, hcls, hpar, hsibs]

theorem getCss_child_nth (doc : Dom) (p : List Nat) (el par : Dom) (hne : p ≠ [])
    (hf : fetch doc p = some el) (hid : el.idAttr = "") (hti : el.testid = "")
    (hcls : (!el.classes.isEmpty
        && (resolveAll doc (.tagCls el.tag el.classes)).length == 1) = false)
    (hpar : fetch doc p.dropLast = some par)
    (hsibs : (par.children.filter fun c => c.tag == el.tag).length ≠ 1) :
    getCssSelector doc p
      = .child (getCssSelector doc p.dropLast) el.tag (some ((nthOfType doc p).getD 1)) := by
  rw [getCssSelector, dif_neg hne, hf]
  simp [hid, hti, hcls, hpar, hsibs]

theorem nthOfType_snoc (doc : Dom) (qs : List Nat) (j : Nat) (par el : Dom)
    (hpar : fetch doc qs = some par) (hel : fetch doc (qs ++ [j]) = some el) :
    nthOfType doc (qs ++ [j]) = some (tagPos par.children el.tag j + 1) := by
  unfold nthOfType
  rw [List.getLast?_concat, List.dropLast_concat, hpar, hel]
  simp [tagPos]

theorem matchesSel_id_iff (doc : Dom) (v : String) (q : List Nat) :
    matchesSel doc (.idSel v) q = true
      ↔ ∃ nq, fetch doc q = some nq ∧ nq.idAttr = v := by
  simp only [matchesSel]
  rcases hq : fetch doc q with _ | nq <;> simp [beq_iff_eq]

theorem matchesSel_testid_iff (doc : Dom) (v : String) (q : List Nat) :
    matchesSel doc (.testidSel v) q = true
      ↔ ∃ nq, fetch doc q = some nq ∧ nq.testid = v := by
  simp only [matchesSel]
  rcases hq : fetch doc q with _ | nq <;> simp [beq_iff_eq]

theorem matchesSel_tagCls_iff (doc : Dom) (t : String) (cls : List String) (q : List Nat) :
    matchesSel doc (.tagCls t cls) q = true
      ↔ ∃ nq, fetch doc q = some nq ∧ nq.tag = t
          ∧ (cls.all fun c => nq.classes.contains c) = true := by
  simp only [matchesSel]
  rcases hq : fetch doc q with _ | nq <;> simp [beq_iff_eq]

theorem matchesSel_child_iff (doc : Dom) (ps : Sel) (t : String) (nth : Option Nat)
    (q : List Nat) :
    matchesSel doc (.child ps t nth) q = true
      ↔ q ≠ [] ∧ matchesSel doc ps q.dropLast = true
          ∧ (∃ nq, fetch doc q = some nq ∧ nq.tag = t)
          ∧ ∀ k, nth = some k → nthOfType doc q = some k := by
  simp only [matchesSel, Bool.and_eq_true]
  constructor
  · rintro ⟨⟨⟨hq1, hq2⟩, hq3⟩, hq4⟩
    refine ⟨by cases q <;> simp_all, hq2, ?_, ?_⟩
    · rcases hq : fetch doc q with _ | nq
      · rw [hq] at hq3; simp at hq3
      · rw [hq] at hq3
        exact ⟨nq, rfl, by simpa [beq_iff_eq] using hq3⟩
    · intro k hk
      rw [hk] at hq4
      simpa [beq_iff_eq] using hq4
  · rintro ⟨hq1, hq2, ⟨nq, hfq, htq⟩, hq4⟩
    refine ⟨⟨⟨by cases q <;> simp_all, hq2⟩, ?_⟩, ?_⟩
    · rw [hfq]
      simpa [beq_iff_eq] using htq
    · rcases nth with _ | k
      · simp
      · simpa [beq_iff_eq] using hq4 k rfl

/-- The filterMap key of `idsOf`. -/
def idKey (doc : Dom) (p : List Nat) : Option String :=
  (fetch doc p).bind fun n => if n.idAttr = "" then none else some n.idAttr

/-- The filterMap key of `testidsOf`. -/
def testidKey (doc : Dom) (p : List Nat) : Option String :=
  (fetch doc p).bind fun n => if n.testid = "" then none else some n.testid

theorem idsOf_eq (doc : Dom) : idsOf doc = (subtreePaths doc).filterMap (idKey doc) := rfl

theorem testidsOf_eq (doc : Dom) :
    testidsOf doc = (subtreePaths doc).filterMap (testidKey doc) := rfl

theorem selector_unique_aux (doc : Dom)
    (hids : (idsOf doc).Nodup) (htids : (testidsOf doc).Nodup)
    (hbody : resolveAll doc .bodyTag = [[]]) :
    ∀ p, p ∈ subtreePaths doc → resolveAll doc (getCssSelector doc p) = [p] := by
  intro p
  induction p using List.reverseRecOn with
  | nil =>
    intro _
    rw [getCss_nil]
    exact hbody
  | append_singleton qs j ih =>
    intro hp
    have hne : qs ++ [j] ≠ [] := by simp
    have hfs : (fetch doc (qs ++ [j])).isSome := mem_subtreePaths.mp hp
    obtain ⟨el, hf⟩ := Option.isSome_iff_exists.mp hfs
    obtain ⟨par, hpar, hchild⟩ := fetch_snoc doc qs j el hf
    have hqs : qs ∈ subtreePaths doc := parent_mem_subtreePaths hp
    by_cases hid : el.idAttr = ""
    case neg =>
      rw [getCss_id doc _ el hne hf hid]
      apply filter_eq_singleton _ _ _ (subtreePaths_nodup doc) hp
      · exact (matchesSel_id_iff doc _ _).mpr ⟨el, hf, rfl⟩
      · intro q hq hPq
        obtain ⟨nq, hfq, hidq⟩ := (matchesSel_id_iff doc _ _).mp hPq
        refine filterMap_nodup_inj (idKey doc) (subtreePaths doc) (subtreePaths_nodup doc)
          (by rw [← idsOf_eq]; exact hids) q hq (qs ++ [j]) hp el.idAttr ?_ ?_
        · unfold idKey
          rw [hfq]
          simp [hidq, hid]
        · unfold idKey
          rw [hf]
          simp [hid]
    case pos =>
    by_cases hti : el.testid = ""
    case neg =>
      rw [getCss_testid doc _ el hne hf hid hti]
      apply filter_eq_singleton _ _ _ (subtreePaths_nodup doc) hp
      · exact (matchesSel_testid_iff doc _ _).mpr ⟨el, hf, rfl⟩
      · intro q hq hPq
        obtain ⟨nq, hfq, htiq⟩ := (matchesSel_testid_iff doc _ _).mp hPq
        refine filterMap_nodup_inj (testidKey doc) (subtreePaths doc) (subtreePaths_nodup doc)
          (by rw [← testidsOf_eq]; exact htids) q hq (qs ++ [j]) hp el.testid ?_ ?_
        · unfold testidKey
          rw [hfq]
          simp [htiq, hti]
        · unfold testidKey
          rw [hf]
          simp [hti]
    case pos =>
    rcases hcls : (!el.classes.isEmpty
        && (resolveAll doc (.tagCls el.tag el.classes)).length == 1) with _ | _
    case true =>
      rw [getCss_cls doc _ el hne hf hid hti hcls]
      have hlen : (resolveAll doc (.tagCls el.tag el.classes)).length = 1 := by
        have h2 := ((Bool.and_eq_true _ _).mp hcls).2
        simpa [beq_iff_eq] using h2
      exact eq_singleton_of_length_one _ _ hlen
        (mem_resolveAll.mpr ⟨hp, (matchesSel_tagCls_iff doc _ _ _).mpr
          ⟨el, hf, rfl, all_contains_self _⟩⟩)
    case false =>
      have hih := ih hqs
      have hpar2 : fetch doc (qs ++ [j]).dropLast = some par := by
        rw [List.dropLast_concat]; exact hpar
      have hqmatch : matchesSel doc (getCssSelector doc qs) qs = true := by
        have : qs ∈ resolveAll doc (getCssSelector doc qs) := by
          rw [hih]; exact List.mem_singleton.mpr rfl
        exact (mem_resolveAll.mp this).2
      by_cases hsibs : (par.children.filter fun c => c.tag == el.tag).length = 1
      · rw [getCss_child_single doc _ el par hne hf hid hti hcls hpar2 hsibs,
          List.dropLast_concat]
        apply filter_eq_singleton _ _ _ (subtreePaths_nodup doc) hp
        · apply (matchesSel_child_iff doc _ _ _ _).mpr
          refine ⟨hne, ?_, ⟨el, hf, rfl⟩, ?_⟩
          · rw [List.dropLast_concat]; exact hqmatch
          · intro k hk; exact absurd hk (by simp)
        · intro q hq hPq
          obtain ⟨hqne, hqdl, ⟨nq, hfq, htagq⟩, _⟩ :=
            (matchesSel_child_iff doc _ _ _ _).mp hPq
          obtain ⟨qinit, jq, rfl⟩ : ∃ qi jq, q = qi ++ [jq] :=
            ⟨q.dropLast, q.getLast hqne, (List.dropLast_append_getLast hqne).symm⟩
          rw [List.dropLast_concat] at hqdl
          have hqinit : qinit ∈ subtreePaths doc := parent_mem_subtreePaths hq
          have hmemq : qinit ∈ resolveAll doc (getCssSelector doc qs) :=
            mem_resolveAll.mpr ⟨hqinit, hqdl⟩
          rw [hih] at hmemq
          obtain rfl : qinit = qs := List.mem_singleton.mp hmemq
          obtain ⟨parq, hparq, hchildq⟩ := fetch_snoc doc qinit jq nq hfq
          rw [hpar] at hparq
          obtain rfl : par = parq := Option.some.inj hparq
          have hjq : jq = j := by
            by_contra hneq
            have h2 := two_same_tag_children par.children el.tag j jq el nq
              hchild hchildq rfl htagq fun hcon => hneq hcon.symm
            omega
          rw [hjq]
      · rw [getCss_child_nth doc _ el par hne hf hid hti hcls hpar2 hsibs,
          List.dropLast_concat]
        have hnth := nthOfType_snoc doc qs j par el hpar hf
        apply filter_eq_singleton _ _ _ (subtreePaths_nodup doc) hp
        · apply (matchesSel_child_iff doc _ _ _ _).mpr
          refine ⟨hne, ?_, ⟨el, hf, rfl⟩, ?_⟩
          · rw [List.dropLast_concat]; exact hqmatch
          · intro k hk
            have hk2 : k = (nthOfType doc (qs ++ [j])).getD 1 := (Option.some.inj hk).symm
            rw [hk2, hnth]
            rfl
        · intro q hq hPq
          obtain ⟨hqne, hqdl, ⟨nq, hfq, htagq⟩, hqnth⟩ :=
            (matchesSel_child_iff doc _ _ _ _).mp hPq
          obtain ⟨qinit, jq, rfl⟩ : ∃ qi jq, q = qi ++ [jq] :=
            ⟨q.dropLast, q.getLast hqne, (List.dropLast_append_getLast hqne).symm⟩
          rw [List.dropLast_concat] at hqdl
          have hqinit : qinit ∈ subtreePaths doc := parent_mem_subtreePaths hq
          have hmemq : qinit ∈ resolveAll doc (getCssSelector doc qs) :=
            mem_resolveAll.mpr ⟨hqinit, hqdl⟩
          rw [hih] at hmemq
          have hqq : qinit = qs := List.mem_singleton.mp hmemq
          rw [hqq] at hfq hqnth ⊢
          obtain ⟨parq, hparq, hchildq⟩ := fetch_snoc doc qs jq nq hfq
          rw [hpar] at hparq
          obtain rfl : par = parq := Option.some.inj hparq
          have hnthq := nthOfType_snoc doc qs jq par nq hpar hfq
          have hkq := hqnth ((nthOfType doc (qs ++ [j])).getD 1) rfl
          rw [hnthq, hnth] at hkq
          simp only [Option.getD_some] at hkq
          have heqpos : tagPos par.children nq.tag jq = tagPos par.children el.tag j := by
            have h5 := Option.some.inj hkq
            omega
          rw [htagq] at heqpos
          have hjq : jq = j := by
            by_contra hneq
            exact tagPos_inj par.children el.tag jq j nq el hchildq hchild htagq rfl
              hneq heqpos
          rw [hjq]

/-- A document in which two nodes share the id `x`. -/
def dupIdDoc : Dom :=
  .el "body" "" "" [] [.el "div" "x" "" [] [], .el "div" "x" "" [] []]

/-- C4 counterexample: for the second of two nodes sharing id `x`, the
addressor returns `#x` (the id branch performs no uniqueness check), and
that selector resolves to both nodes — not exactly the given one. -/
theorem selector_not_unique_counterexample :
    [1] ∈ subtreePaths dupIdDoc ∧
    getCssSelector dupIdDoc [1] = .idSel "x" ∧
    resolveAll dupIdDoc (getCssSelector dupIdDoc [1]) ≠ [[1]] := by
  have h2 : getCssSelector dupIdDoc [1] = .idSel "x" :=
    getCss_id dupIdDoc [1] (.el "div" "x" "" [] []) (by decide) rfl (by decide)
  refine ⟨by decide, h2, ?_⟩
  rw [h2]
  intro hcon
  have h0 : [0] ∈ resolveAll dupIdDoc (.idSel "x") :=
    mem_resolveAll.mpr ⟨by decide, by decide⟩
  rw [hcon] at h0
  simp at h0

/-- C4 amended: the addressor tries, in priority order with first success
winning, the id selector, the test-identifier attribute selector, the
document-wide-unique tag+class selector, and otherwise the parent
selector extended by `> tag` (only same-tag sibling) or
`> tag:nth-of-type(n)`, with the document body as base case — and the
returned selector resolves to exactly the given node **provided the
document is well-formed**: non-empty ids are unique document-wide,
non-empty test identifiers are unique document-wide, and only the root
carries the `body` tag.  (Without those provisos the claim fails: the id
and test-id branches perform no uniqueness check.) -/
theorem addressor_selector_resolves_unique (doc : Dom) (p : List Nat)
    (hids : (idsOf doc).Nodup) (htids : (testidsOf doc).Nodup)
    (hbody : resolveAll doc .bodyTag = [[]])
    (hp : p ∈ subtreePaths doc) :
    resolveAll doc (getCssSelector doc p) = [p] :=
  selector_unique_aux doc hids htids hbody p hp

/-- A well-formed document: `div#main` holding two spans, and `p` with a
test id. -/
def demoDoc4 : Dom :=
  .el "body" "" "" []
    [.el "div" "main" "" [] [.el "span" "" "" ["hero"] [], .el "span" "" "" [] []],
     .el "p" "" "cta" [] []]

/-- Witness for the amended C4 at the second span of `#main` (whose
selector goes through the parent-recursion branch). -/
theorem addressor_selector_resolves_unique_witness :
    ((idsOf demoDoc4).Nodup ∧ (testidsOf demoDoc4).Nodup ∧
     resolveAll demoDoc4 .bodyTag = [[]] ∧ [0, 1] ∈ subtreePaths demoDoc4) ∧
    resolveAll demoDoc4 (getCssSelector demoDoc4 [0, 1]) = [[0, 1]] :=
  ⟨⟨by decide, by decide, by decide, by decide⟩,
   addressor_selector_resolves_unique demoDoc4 [0, 1]
     (by decide) (by decide) (by decide) (by decide)⟩

end Testcaseer
